import Mathlib

/-!
Verification of the PortfoProphet stock-portfolio tracker.

The development shallowly embeds the program's data model and operations:

* `Json`, `cleanAndParseJson` and its string machinery embed the permissive
  JSON-recovery helper of `src/services/geminiService.ts` (JS `JSON.parse`
  itself is an abstract parameter `parse : String → Option Json`, with
  `none` standing for a thrown parse error);
* `fetchFinMindPrice`, `fetchStockSupportingData`, `transformDataToJson`,
  `analyzeStockWithGemini` embed the quote/analysis pipeline of
  `src/services/geminiService.ts`, with the outcome of each external call
  (HTTP fetch, AI `generateContent`) supplied by an environment value;
* `Part000.getOverallPortfolioAdvice` embeds the portfolio-advice function
  of `src/unnamed/part_000` (the variant with the rate-limit substring
  check);
* `AppState`, `handleAddStock`, `handleSellStock` and the other handlers
  embed the ledger logic of `src/App.tsx`, with JS numbers modelled as
  rationals, form fields as `Option ℚ` (`none` = empty input, `some q` =
  the `parseFloat` of a non-empty input), and `Date.now()` values passed
  in as parameters.
-/

namespace StockApp

/-! ### JSON values

Parsed JSON values as JS sees them.  JSON object/array payloads of the AI
responses are modelled structurally; numeric fields are modelled as JSON
numbers (`Json.num`), which is the shape the prompts request. -/

inductive Json where
  | null
  | bool (b : Bool)
  | num (q : ℚ)
  | str (s : String)
  | arr (elems : List Json)
  | obj (fields : List (String × Json))

namespace Json

/-- JS property access `data.k` on a parsed object: `none` models
`undefined` (missing field or non-object receiver). -/
def getField : Json → String → Option Json
  | .obj fields, k => fields.lookup k
  | _, _ => none

/-- A string-valued field, `none` when absent or not a string. -/
def getStr (j : Json) (k : String) : Option String :=
  match j.getField k with
  | some (.str s) => some s
  | _ => none

/-- A number-valued field, `none` when absent or not a number. -/
def getNum (j : Json) (k : String) : Option ℚ :=
  match j.getField k with
  | some (.num q) => some q
  | _ => none

end Json

/-! ### String machinery for `cleanAndParseJson`

`src/services/geminiService.ts` lines 13-32: the recovery steps use the JS
regex replace `/` + "```json\\s*" + `/g` and `/` + "```" + `/g`, `trim`,
`indexOf`, `lastIndexOf` and `substring`; these are embedded below on
`List Char`. -/

/-- The characters the JS regex class `\s` and `String.trim` treat as
whitespace (the ASCII ones; exotic Unicode spaces do not occur here). -/
def isJsSpace (c : Char) : Bool :=
  c = ' ' || c = '\t' || c = '\n' || c = '\r' || c = '\x0b' || c = '\x0c'

/-- Greedy `\s*`: drop leading whitespace. -/
def dropSpaces (l : List Char) : List Char := l.dropWhile isJsSpace

/-- The literal part of the pattern `/` + "```json\\s*" + `/g`. -/
def fenceJson : List Char := "```json".toList

/-- The pattern `/` + "```" + `/g`. -/
def fenceTicks : List Char := "```".toList

/-- `text.replace(/` + "```json\\s*" + `/g, '')`: left-to-right global scan;
each match consumes the literal token and the following whitespace.  The
fuel argument (one unit per scan step, each step shortens the list) keeps
the recursion structural so that concrete inputs evaluate by reduction;
`replaceFenceJson` supplies fuel that can never run out. -/
def replaceFenceJsonF : ℕ → List Char → List Char
  | _, [] => []
  | 0, l => l
  | fuel + 1, c :: cs =>
    if (c :: cs).take fenceJson.length = fenceJson then
      replaceFenceJsonF fuel (dropSpaces ((c :: cs).drop fenceJson.length))
    else
      c :: replaceFenceJsonF fuel cs

def replaceFenceJson (l : List Char) : List Char := replaceFenceJsonF l.length l

/-- `text.replace(/` + "```" + `/g, '')`, with the same fuel scheme. -/
def replaceTicksF : ℕ → List Char → List Char
  | _, [] => []
  | 0, l => l
  | fuel + 1, c :: cs =>
    if (c :: cs).take fenceTicks.length = fenceTicks then
      replaceTicksF fuel ((c :: cs).drop fenceTicks.length)
    else
      c :: replaceTicksF fuel cs

def replaceTicks (l : List Char) : List Char := replaceTicksF l.length l

/-- JS `String.trim()`. -/
def jsTrim (l : List Char) : List Char :=
  ((dropSpaces l).reverse.dropWhile isJsSpace).reverse

/-- The cleaned text of the second recovery step:
`text.replace(/` + "```json\\s*" + `/g, '').replace(/` + "```" + `/g, '').trim()`. -/
def cleanStr (text : String) : String :=
  String.mk (jsTrim (replaceTicks (replaceFenceJson text.toList)))

/-- `text.indexOf('\x7b')` (the first opening brace), `none` for -1. -/
def firstBraceIdx (l : List Char) : Option ℕ := l.findIdx? (· = '\x7b')

/-- `text.lastIndexOf('\x7d')` (the last closing brace), `none` for -1. -/
def lastBraceIdx (l : List Char) : Option ℕ :=
  match l.reverse.findIdx? (· = '\x7d') with
  | some i => some (l.length - 1 - i)
  | none => none

/-- JS `text.substring(a, b)`: swaps the endpoints when `a > b`. -/
def jsSubstring (l : List Char) (a b : ℕ) : List Char :=
  (l.drop (min a b)).take (max a b - min a b)

/-- The extracted candidate of the third recovery step:
`text.substring(start, end + 1)`. -/
def braceSlice (text : String) (s e : ℕ) : String :=
  String.mk (jsSubstring text.toList s (e + 1))

/-- `src/services/geminiService.ts` lines 13-32 (`cleanAndParseJson`): parse
the raw text; failing that, parse the fence-stripped trimmed text; failing
that, parse the first-`\x7b`-to-last-`\x7d` slice of the raw text; failing
everything, return the empty object.  `parse` abstracts `JSON.parse`
(`none` = throws). -/
def cleanAndParseJson (parse : String → Option Json) (text : String) : Json :=
  if text = "" then .obj []
  else
    match parse text with
    | some v => v
    | none =>
      match parse (cleanStr text) with
      | some v => v
      | none =>
        match firstBraceIdx text.toList, lastBraceIdx text.toList with
        | some s, some e =>
          match parse (braceSlice text s e) with
          | some v => v
          | none => .obj []
        | some _, none => .obj []
        | none, _ => .obj []

end StockApp


namespace StockApp

/-! ### JS string helpers shared by the service and the app -/

/-- JS `x || dflt` on an optional string: `undefined` and `""` are falsy. -/
def strOrDefault (v : Option String) (dflt : String) : String :=
  match v with
  | some s => if s = "" then dflt else s
  | none => dflt

/-- JS `String.toUpperCase()` (character-wise, as used on ticker symbols). -/
def toUpperJs (s : String) : String := String.mk (s.toList.map Char.toUpper)

/-- `Array.from(new Set(urls))`: deduplicate keeping first occurrences. -/
def dedupFirst (l : List String) : List String :=
  l.foldl (fun acc s => if s ∈ acc then acc else acc ++ [s]) []

/-- `hay.includes(needle)`: JS substring containment. -/
def includesSubstr (needle hay : String) : Bool :=
  go needle.toList hay.toList
where
  go (tok : List Char) : List Char → Bool
    | [] => tok.isEmpty
    | c :: cs => decide ((c :: cs).take tok.length = tok) || go tok cs

/-! ### FinMind price fetch (`src/services/geminiService.ts` lines 52-85)

The HTTP interaction is abstracted into its observable outcome. -/

/-- One daily record of the FinMind response, reduced to the value
`parseFloat(record.close)` the code reads from it (`none` models `NaN`). -/
structure DailyRecord where
  close : Option ℚ
deriving DecidableEq

/-- Outcome of `fetch(url)` + `response.json()`: a thrown exception, a
non-ok HTTP status, or a JSON body with its `msg` field and its `data`
field (`none` when `data` is not an array). -/
inductive FetchOutcome where
  | throw
  | httpError
  | body (msg : String) (data : Option (List DailyRecord))
deriving DecidableEq

/-- `fetchFinMindPrice`: requires `msg === "success"`, a non-empty data
array, and a last-record close that parses to a number greater than 0;
every other path returns `null`. -/
def fetchFinMindPrice (o : FetchOutcome) : Option ℚ :=
  match o with
  | .throw => none
  | .httpError => none
  | .body msg data =>
    match data with
    | some records =>
      if msg = "success" ∧ records ≠ [] then
        match records.getLast? with
        | some r =>
          match r.close with
          | some price => if 0 < price then some price else none
          | none => none
        | none => none
      else none
    | none => none

/-! ### AI pipeline stages (`src/services/geminiService.ts` lines 117-245) -/

/-- Outcome of one `ai.models.generateContent` call: a thrown error
(carrying `e.message`), or a response with its `text` (`none` models
`undefined`) and its grounding URLs. -/
inductive CallResult where
  | throw (msg : String)
  | reply (text : Option String) (urls : List String)
deriving DecidableEq

/-- `fetchStockSupportingData` (lines 117-149): its own `catch` turns any
thrown error into placeholder text with no URLs, so this stage never
throws.  Returns `(text, urls)`. -/
def fetchStockSupportingData (call : CallResult) : String × List String :=
  match call with
  | .throw _ => ("無法取得新聞與基本面資訊。", [])
  | .reply text urls => (text.getD "", dedupFirst urls)

/-- `transformDataToJson` (lines 151-197): a thrown `generateContent` error
is re-thrown as `數據解析失敗`; a returned text is run through
`cleanAndParseJson` (which never throws). -/
def transformDataToJson (parse : String → Option Json) (call : CallResult) :
    Except String Json :=
  match call with
  | .throw _ => .error "數據解析失敗"
  | .reply text _ => .ok (cleanAndParseJson parse (text.getD ""))

/-- The per-symbol analysis snapshot (`StockAnalysis` of `src/types.ts`) as
`analyzeStockWithGemini` builds it.  `currentPrice` is `data.currentPrice`
with no fallback, hence `Option`; `changePercent` is `none` when the JS
computation would be `NaN`. -/
structure StockAnalysis where
  symbol : String
  companyName : String
  marketCap : String
  eps : String
  pe : String
  currentPrice : Option ℚ
  prevClose : ℚ
  changePercent : Option ℚ
  volatility : ℚ
  history : List (String × ℚ)
  advice : String
  aiPrediction : Option Json
  groundingUrls : List String
  lastUpdated : ℕ

/-- `data.prevClose > 0 ? ((data.currentPrice - data.prevClose) /
data.prevClose) * 100 : 0` (lines 221-223).  A missing `prevClose` is not
`> 0`, so the guard falls to `0`; a missing `currentPrice` under a positive
`prevClose` makes the JS value `NaN`, modelled `none`. -/
def changePercentOf (cur prev : Option ℚ) : Option ℚ :=
  match prev with
  | some pc =>
    if 0 < pc then
      match cur with
      | some c => some ((c - pc) / pc * 100)
      | none => none
    else some 0
  | none => some 0

/-- `data.volatility || 0.3`. -/
def volatilityOf (v : Option ℚ) : ℚ :=
  match v with
  | some q => if q = 0 then 3 / 10 else q
  | none => 3 / 10

/-- The returned object of `analyzeStockWithGemini` (lines 225-240). -/
def buildAnalysis (symbol : String) (data : Json) (urls : List String)
    (now : ℕ) : StockAnalysis :=
  { symbol := strOrDefault ((data.getStr "symbol").map toUpperJs) symbol
    companyName := strOrDefault (data.getStr "companyName") symbol
    marketCap := strOrDefault (data.getStr "marketCap") "N/A"
    eps := strOrDefault (data.getStr "eps") "N/A"
    pe := strOrDefault (data.getStr "pe") "N/A"
    currentPrice := data.getNum "currentPrice"
    prevClose := (data.getNum "prevClose").getD 0
    changePercent := changePercentOf (data.getNum "currentPrice") (data.getNum "prevClose")
    volatility := volatilityOf (data.getNum "volatility")
    history := []
    advice := strOrDefault (data.getStr "advice") "暫無建議"
    aiPrediction := data.getField "aiPrediction"
    groundingUrls := urls
    lastUpdated := now }

/-- The environment of one `analyzeStockWithGemini` run: the FinMind fetch
outcome, whether an API key is configured, the outcomes of the two
`generateContent` calls, the `JSON.parse` oracle and the clock. -/
structure AnalyzeEnv where
  finMind : FetchOutcome
  hasApiKey : Bool
  supportCall : CallResult
  transformCall : CallResult
  parse : String → Option Json
  now : ℕ

/-- `analyzeStockWithGemini` (lines 200-245): a `null` FinMind price throws
before any AI stage; a missing API key throws; the supporting-data stage
never throws; a `transformDataToJson` throw is re-thrown by the outer
`catch`; otherwise the merged analysis is returned. -/
def analyzeStockWithGemini (env : AnalyzeEnv) (symbol : String) :
    Except String StockAnalysis :=
  match fetchFinMindPrice env.finMind with
  | none => .error ("FinMind API 無法取得 " ++ symbol ++ " 的報價。請確認代號正確或 API 配額。")
  | some _realTimePrice =>
    if env.hasApiKey then
      let supportingData := fetchStockSupportingData env.supportCall
      match transformDataToJson env.parse env.transformCall with
      | .error e => .error e
      | .ok data => .ok (buildAnalysis symbol data supportingData.2 env.now)
    else .error "【設定錯誤】未偵測到 API Key。"

end StockApp

namespace StockApp

/-! ### Portfolio advice of `src/unnamed/part_000` (lines 194-227)

This is the variant of `getOverallPortfolioAdvice` whose `catch` inspects
`e.message` for the substring `"429"`. -/

namespace Part000

/-- The environment of one `getOverallPortfolioAdvice` run. -/
structure AdviceEnv where
  hasApiKey : Bool
  marketCall : CallResult
  strategyCall : CallResult

/-- `fetchMarketTrends` (part_000 lines 32-52): catches its own errors, so
it never throws. -/
def fetchMarketTrends (call : CallResult) : String :=
  match call with
  | .throw _ => "市場資訊獲取失敗，將基於一般邏輯分析。"
  | .reply text _ => strOrDefault text "目前無法取得市場資訊。"

/-- `analyzePortfolioStrategy` (part_000 lines 59-92): no `catch`, so a
thrown `generateContent` error propagates. -/
def analyzePortfolioStrategy (call : CallResult) : Except String String :=
  match call with
  | .throw m => .error m
  | .reply text _ => .ok (strOrDefault text "無法生成分析。")

/-- `getOverallPortfolioAdvice` (part_000 lines 194-227): `getAiClient` is
called outside the `try`, so a missing API key throws; inside the `try`
only the strategy stage can throw, and its error is mapped to the
rate-limit advisory when `e.message` contains `"429"`, otherwise to a
generic failure message.  The prompt strings fed to the external calls are
not modelled; the call outcomes are the environment. -/
def getOverallPortfolioAdvice (env : AdviceEnv) : Except String String :=
  if env.hasApiKey then
    let _marketTrends := fetchMarketTrends env.marketCall
    match analyzePortfolioStrategy env.strategyCall with
    | .ok advice => .ok advice
    | .error e =>
      if includesSubstr "429" e then
        .ok "⚠️ AI 思考負載過高。請稍等 1 分鐘後再試 (系統正在自動調節請求頻率)。"
      else
        .ok ("⚠️ 建議生成失敗: " ++ e)
  else .error "【設定錯誤】未偵測到 API Key。"

end Part000

end StockApp

namespace StockApp

/-! ### App state and ledger handlers (`src/App.tsx`)

JS numbers are rationals; a form field is `Option ℚ` (`none` = empty
string, which JS treats as falsy; `some q` = the `parseFloat` of a
non-empty numeric input).  `Date.now().toString()` and
`new Date().toISOString()` are passed in as parameters. -/

/-- `PortfolioItem` of `src/types.ts`. -/
structure PortfolioItem where
  id : String
  symbol : String
  name : String
  shares : ℚ
  avgCost : ℚ
deriving DecidableEq

/-- `Transaction` of `src/types.ts` (sale records only, as the app creates
them). -/
structure Transaction where
  id : String
  symbol : String
  name : String
  type : String
  shares : ℚ
  price : ℚ
  fee : ℚ
  date : String
  realizedPl : ℚ
  returnRate : ℚ
deriving DecidableEq

/-- `WatchListItem` of `src/types.ts`. -/
structure WatchListItem where
  id : String
  symbol : String
deriving DecidableEq

/-- `AppSettings` of `src/types.ts`. -/
structure AppSettings where
  feeRate : ℚ
  cash : ℚ
deriving DecidableEq

/-- The app's data state: the `settings`, `portfolio`, `watchlist`,
`transactions` and `analyses` React state values (UI-only state such as
open modals is not part of the ledger). `analyses` is the
`Record<string, StockAnalysis>` map as an association list (first match
wins, insertion replaces). -/
structure AppState where
  settings : AppSettings
  portfolio : List PortfolioItem
  watchlist : List WatchListItem
  transactions : List Transaction
  analyses : List (String × StockAnalysis)

/-- `analyses[sym]?.companyName || sym` (App.tsx line 116). -/
def displayNameFor (analyses : List (String × StockAnalysis)) (sym : String) : String :=
  match analyses.lookup sym with
  | some a => if a.companyName = "" then sym else a.companyName
  | none => sym

/-- The add-stock form fields. -/
structure AddForm where
  newSymbol : String
  newShares : Option ℚ
  newPrice : Option ℚ
  newFee : Option ℚ

/-- `handleAddStock` (App.tsx lines 101-134): rejected when symbol, shares
or price is empty; otherwise appends the new item (cost basis
`(price*shares + fee) / shares`) and deducts `price*shares + fee` from
cash.  `nowId` is `Date.now().toString()`. -/
def handleAddStock (st : AppState) (form : AddForm) (nowId : String) : AppState :=
  if form.newSymbol = "" ∨ form.newShares = none ∨ form.newPrice = none then st
  else
    let shares := form.newShares.getD 0
    let price := form.newPrice.getD 0
    let fee := form.newFee.getD 0
    let totalCost := price * shares + fee
    let avgCost := totalCost / shares
    let sym := toUpperJs form.newSymbol
    let newItem : PortfolioItem :=
      { id := nowId, symbol := sym, name := displayNameFor st.analyses sym
        shares := shares, avgCost := avgCost }
    { st with
      portfolio := st.portfolio ++ [newItem]
      settings := { st.settings with cash := st.settings.cash - totalCost } }

/-- The sell-modal fields (`sellItem`, `sellShares`, `sellPrice`,
`sellFee`). -/
structure SellForm where
  sellItem : Option PortfolioItem
  sellShares : Option ℚ
  sellPrice : Option ℚ
  sellFee : Option ℚ

/-- The transaction record a sell appends (App.tsx lines 161-172). -/
def sellTransaction (item : PortfolioItem) (price fee sharesToSell : ℚ)
    (nowId nowDate : String) : Transaction :=
  { id := nowId, symbol := item.symbol, name := item.name, type := "SELL"
    shares := sharesToSell, price := price, fee := fee, date := nowDate
    realizedPl := (price * sharesToSell - fee) - item.avgCost * sharesToSell
    returnRate :=
      if 0 < item.avgCost * sharesToSell then
        ((price * sharesToSell - fee) - item.avgCost * sharesToSell)
          / (item.avgCost * sharesToSell) * 100
      else 0 }

/-- The per-item update of a partial sell (App.tsx lines 182-184). -/
def partialSellUpdate (itemId : String) (sharesToSell : ℚ)
    (p : PortfolioItem) : PortfolioItem :=
  if p.id = itemId then { p with shares := p.shares - sharesToSell } else p

/-- `handleSellStock` (App.tsx lines 143-191): rejected when no item or an
empty price/shares field; rejected (alert) when `sharesToSell <= 0` or
`sharesToSell > sellItem.shares`; otherwise appends the sale transaction,
adds `price*shares - fee` to cash, and removes the position (full sell) or
decrements its share count (partial sell). -/
def handleSellStock (st : AppState) (form : SellForm) (nowId nowDate : String) : AppState :=
  match form.sellItem with
  | none => st
  | some item =>
    if form.sellPrice = none ∨ form.sellShares = none then st
    else
      let price := form.sellPrice.getD 0
      let fee := form.sellFee.getD 0
      let sharesToSell := form.sellShares.getD 0
      if sharesToSell ≤ 0 ∨ item.shares < sharesToSell then st
      else
        let revenue := price * sharesToSell - fee
        let st1 : AppState :=
          { st with
            transactions :=
              st.transactions ++ [sellTransaction item price fee sharesToSell nowId nowDate]
            settings := { st.settings with cash := st.settings.cash + revenue } }
        if sharesToSell = item.shares then
          { st1 with portfolio := st1.portfolio.filter (fun p => p.id ≠ item.id) }
        else
          { st1 with portfolio := st1.portfolio.map (partialSellUpdate item.id sharesToSell) }

/-- `onRemove` of the stock card (App.tsx line 456). -/
def handleRemoveStock (st : AppState) (pid : String) : AppState :=
  { st with portfolio := st.portfolio.filter (fun p => p.id ≠ pid) }

/-- `handleAddToWatchlist` (App.tsx lines 193-202), state part. -/
def handleAddToWatchlist (st : AppState) (symbol nowId : String) : AppState :=
  if st.watchlist.any (fun w => w.symbol = symbol) then st
  else { st with watchlist := st.watchlist ++ [{ id := nowId, symbol := symbol }] }

/-- `onRemove` of the watchlist (App.tsx line 480). -/
def handleRemoveFromWatchlist (st : AppState) (wid : String) : AppState :=
  { st with watchlist := st.watchlist.filter (fun w => w.id ≠ wid) }

/-- The state update of a successful `handleAnalyze` (App.tsx lines 88-93):
cache the analysis under its symbol and refresh the display name of the
matching portfolio items. -/
def applyAnalysis (st : AppState) (symbol : String) (a : StockAnalysis) : AppState :=
  { st with
    analyses := (symbol, a) :: st.analyses.filter (fun kv => kv.1 ≠ symbol)
    portfolio := st.portfolio.map (fun p =>
      if p.symbol = symbol then { p with name := a.companyName } else p) }

/-- The share-count invariant of the spec: no portfolio item holds a
negative number of shares. -/
def SharesNonneg (st : AppState) : Prop := ∀ p ∈ st.portfolio, 0 ≤ p.shares

instance (st : AppState) : Decidable (SharesNonneg st) :=
  inferInstanceAs (Decidable (∀ p ∈ st.portfolio, 0 ≤ p.shares))

end StockApp

namespace StockApp

/-! ### Concrete example inputs used by witnesses and counterexamples -/

def exSettings : AppSettings := { feeRate := 57 / 400, cash := 100000 }

def exC1St : AppState := { settings := exSettings, portfolio := [], watchlist := [], transactions := [], analyses := [] }

def exC1Form : AddForm := { newSymbol := "2330", newShares := some 1000, newPrice := some 50, newFee := some 71 }

def exC2Item : PortfolioItem := { id := "7", symbol := "2330", name := "TSMC", shares := 3, avgCost := 100 }

def exC2St : AppState := { settings := exSettings, portfolio := [exC2Item], watchlist := [], transactions := [], analyses := [] }

def exC2Form : SellForm := { sellItem := some exC2Item, sellShares := some 3, sellPrice := some 120, sellFee := some 5 }

def exC3Item : PortfolioItem := { id := "8", symbol := "2603", name := "Evergreen", shares := 10, avgCost := 100 }

def exC3St : AppState := { settings := exSettings, portfolio := [exC3Item], watchlist := [], transactions := [], analyses := [] }

def exC3Form : SellForm := { sellItem := some exC3Item, sellShares := some 4, sellPrice := some 120, sellFee := some 5 }

def exC9St : AppState := { settings := exSettings, portfolio := [], watchlist := [], transactions := [], analyses := [] }

def exC9BadForm : AddForm := { newSymbol := "2330", newShares := some (-1), newPrice := some 10, newFee := some 0 }

def exC9GoodForm : AddForm := { newSymbol := "2330", newShares := some 2, newPrice := some 10, newFee := some 0 }

def exC4Env : AnalyzeEnv := { finMind := .httpError, hasApiKey := true, supportCall := .reply (some "x") [], transformCall := .reply (some "y") [], parse := fun _ => none, now := 0 }

def exC7Env : AnalyzeEnv := { finMind := .body "success" (some [{ close := some 100 }]), hasApiKey := true, supportCall := .reply (some "news") [], transformCall := .throw "429 RESOURCE_EXHAUSTED", parse := fun _ => none, now := 0 }

def exC7WEnv : AnalyzeEnv := { finMind := .body "success" (some [{ close := some 100 }]), hasApiKey := true, supportCall := .throw "network down", transformCall := .reply none [], parse := fun _ => none, now := 0 }

def exC10Parse : String → Option Json := fun s =>
  if s = "X" then
    some (.obj [("prevClose", .num 50), ("currentPrice", .num 60)])
  else none

def exC10Env : AnalyzeEnv := { finMind := .body "success" (some [{ close := some 100 }]), hasApiKey := true, supportCall := .reply (some "news") [], transformCall := .reply (some "X") [], parse := exC10Parse, now := 0 }

def exC10Data : Json := Json.obj [("prevClose", Json.num 50), ("currentPrice", Json.num 60)]

def exC10Analysis : StockAnalysis := buildAnalysis "2330" exC10Data [] 0

def exC5Parse : String → Option Json := fun s => if s = "null" then some .null else none

def exC5Fenced : String := "```json\x0a null \x0a```"

def exC6Env : Part000.AdviceEnv := { hasApiKey := true, marketCall := .reply (some "trend") [], strategyCall := .throw "Error: 429 Too Many Requests" }

end StockApp

namespace StockApp

/-! ## Theorems

Auxiliary lemmas first, then one theorem (with witness or counterexample
where needed) per specification claim. -/

theorem dropSpaces_length_le (l : List Char) : (dropSpaces l).length ≤ l.length := by
  induction l with
  | nil => simp [dropSpaces]
  | cons c cs ih =>
    by_cases h : isJsSpace c
    · simpa [dropSpaces, List.dropWhile, h] using Nat.le_succ_of_le ih
    · simp [dropSpaces, List.dropWhile, h]

/-- The fuel of `replaceFenceJsonF` never runs out: with fuel at least the
list length the `0, l => l` branch is unreachable, since every step strictly
shortens the list.  (Stated for the fence scanner; the tick scanner is
identical in structure.) -/
theorem replaceFenceJsonF_fuel_irrel (fuel fuel' : ℕ) (l : List Char)
    (h : l.length ≤ fuel) (h' : l.length ≤ fuel') :
    replaceFenceJsonF fuel l = replaceFenceJsonF fuel' l := by
  induction fuel using Nat.strong_induction_on generalizing fuel' l with
  | _ fuel ih =>
    match fuel, fuel', l with
    | 0, 0, [] => rfl
    | 0, _ + 1, [] => rfl
    | _ + 1, 0, [] => rfl
    | _ + 1, _ + 1, [] => rfl
    | 0, _, c :: cs => simp at h
    | _ + 1, 0, c :: cs => simp at h'
    | f + 1, f' + 1, c :: cs =>
      simp only [replaceFenceJsonF]
      by_cases hp : (c :: cs).take fenceJson.length = fenceJson
      · simp only [hp, if_true]
        have hlen : (dropSpaces ((c :: cs).drop fenceJson.length)).length ≤ cs.length := by
          have h1 := dropSpaces_length_le ((c :: cs).drop fenceJson.length)
          have h2 : fenceJson.length = 7 := by decide
          simp only [List.length_drop, List.length_cons, h2] at h1 ⊢
          omega
        exact ih f (Nat.lt_succ_self f) _ _
          (le_trans hlen (by simpa using Nat.lt_succ_iff.mp h))
          (le_trans hlen (by simpa using Nat.lt_succ_iff.mp h'))
      · simp only [hp, if_false, List.cons.injEq, true_and]
        exact ih f (Nat.lt_succ_self f) _ _
          (by simpa using Nat.lt_succ_iff.mp h) (by simpa using Nat.lt_succ_iff.mp h')

end StockApp

namespace StockApp

/-- C1: for every buy of `s` shares at price `p` with fee `f` (symbol,
shares and price parsed from non-empty form inputs), `handleAddStock`
appends one portfolio item whose average cost is `(p*s + f)/s`, decreases
the cash balance by exactly `p*s + f`, and leaves every previously held
portfolio item unchanged in place. -/
theorem C1_handleAddStock_buy (st : AppState) (form : AddForm) (nowId : String)
    (s p : ℚ) (hsym : form.newSymbol ≠ "") (hs : form.newShares = some s)
    (hp : form.newPrice = some p) :
    (handleAddStock st form nowId).portfolio
      = st.portfolio ++
          [{ id := nowId, symbol := toUpperJs form.newSymbol
             name := displayNameFor st.analyses (toUpperJs form.newSymbol)
             shares := s, avgCost := (p * s + form.newFee.getD 0) / s }] ∧
    (handleAddStock st form nowId).settings.cash
      = st.settings.cash - (p * s + form.newFee.getD 0) ∧
    (handleAddStock st form nowId).portfolio.take st.portfolio.length
      = st.portfolio := by
  simp only [handleAddStock, hs, hp, Option.getD_some]
  rw [if_neg (by simp [hsym])]
  refine ⟨rfl, rfl, ?_⟩
  simp [List.take_left]

/-- C1 witness: the buy theorem applied at a concrete state and form
(1000 shares at 50 with fee 71 from a balance of 100000). -/
theorem C1_witness :
    (handleAddStock exC1St exC1Form "1").portfolio
      = exC1St.portfolio ++
          [{ id := "1", symbol := toUpperJs exC1Form.newSymbol
             name := displayNameFor exC1St.analyses (toUpperJs exC1Form.newSymbol)
             shares := 1000, avgCost := (50 * 1000 + exC1Form.newFee.getD 0) / 1000 }] ∧
    (handleAddStock exC1St exC1Form "1").settings.cash
      = exC1St.settings.cash - (50 * 1000 + exC1Form.newFee.getD 0) ∧
    (handleAddStock exC1St exC1Form "1").portfolio.take exC1St.portfolio.length
      = exC1St.portfolio :=
  C1_handleAddStock_buy exC1St exC1Form "1" 1000 50 (by decide) rfl rfl

end StockApp

namespace StockApp

/-- C2: for every sell of exactly all held shares of a position at price
`p` with fee `f`, `handleSellStock` removes the position from the
portfolio, appends one transaction whose realized P/L is
`(p*shares - f) - avgCost*shares`, and increases the cash balance by
`p*shares - f`. -/
theorem C2_handleSellStock_fullSell (st : AppState) (form : SellForm)
    (nowId nowDate : String) (item : PortfolioItem) (p : ℚ)
    (hitem : form.sellItem = some item) (hp : form.sellPrice = some p)
    (hs : form.sellShares = some item.shares) (hpos : 0 < item.shares) :
    (handleSellStock st form nowId nowDate).portfolio
      = st.portfolio.filter (fun q => q.id ≠ item.id) ∧
    (∀ q ∈ (handleSellStock st form nowId nowDate).portfolio, q.id ≠ item.id) ∧
    (handleSellStock st form nowId nowDate).transactions
      = st.transactions
          ++ [sellTransaction item p (form.sellFee.getD 0) item.shares nowId nowDate] ∧
    (sellTransaction item p (form.sellFee.getD 0) item.shares nowId nowDate).realizedPl
      = (p * item.shares - form.sellFee.getD 0) - item.avgCost * item.shares ∧
    (handleSellStock st form nowId nowDate).settings.cash
      = st.settings.cash + (p * item.shares - form.sellFee.getD 0) := by
  simp only [handleSellStock, hitem, hp, hs, Option.getD_some]
  rw [if_neg (by simp), if_neg (by simp [not_le.mpr hpos]), if_pos trivial]
  refine ⟨rfl, ?_, rfl, rfl, rfl⟩
  intro q hq
  exact of_decide_eq_true (List.mem_filter.mp hq).2

/-- C2 witness: the full-sell theorem applied at a concrete state holding
3 shares of cost basis 100, sold at 120 with fee 5. -/
theorem C2_witness :
    (handleSellStock exC2St exC2Form "9" "d").portfolio
      = exC2St.portfolio.filter (fun q => q.id ≠ exC2Item.id) ∧
    (∀ q ∈ (handleSellStock exC2St exC2Form "9" "d").portfolio, q.id ≠ exC2Item.id) ∧
    (handleSellStock exC2St exC2Form "9" "d").transactions
      = exC2St.transactions
          ++ [sellTransaction exC2Item 120 (exC2Form.sellFee.getD 0) exC2Item.shares "9" "d"] ∧
    (sellTransaction exC2Item 120 (exC2Form.sellFee.getD 0) exC2Item.shares "9" "d").realizedPl
      = (120 * exC2Item.shares - exC2Form.sellFee.getD 0)
          - exC2Item.avgCost * exC2Item.shares ∧
    (handleSellStock exC2St exC2Form "9" "d").settings.cash
      = exC2St.settings.cash + (120 * exC2Item.shares - exC2Form.sellFee.getD 0) :=
  C2_handleSellStock_fullSell exC2St exC2Form "9" "d" exC2Item 120 rfl rfl rfl (by decide)

/-- C3: for every partial sell (`0 < s < held shares`), the portfolio is
updated pointwise: the sold position's share count drops by `s` while its
average cost, symbol, name and id are unchanged, and every item with a
different id is unchanged. -/
theorem C3_handleSellStock_partialSell (st : AppState) (form : SellForm)
    (nowId nowDate : String) (item : PortfolioItem) (p s : ℚ)
    (hitem : form.sellItem = some item) (hp : form.sellPrice = some p)
    (hs : form.sellShares = some s) (h0 : 0 < s) (hlt : s < item.shares) :
    (handleSellStock st form nowId nowDate).portfolio
      = st.portfolio.map (partialSellUpdate item.id s) ∧
    (∀ q : PortfolioItem, q.id ≠ item.id → partialSellUpdate item.id s q = q) ∧
    (∀ q : PortfolioItem, q.id = item.id →
      (partialSellUpdate item.id s q).shares = q.shares - s ∧
      (partialSellUpdate item.id s q).avgCost = q.avgCost ∧
      (partialSellUpdate item.id s q).symbol = q.symbol ∧
      (partialSellUpdate item.id s q).name = q.name ∧
      (partialSellUpdate item.id s q).id = q.id) := by
  simp only [handleSellStock, hitem, hp, hs, Option.getD_some]
  rw [if_neg (by simp), if_neg (by simp [not_le.mpr h0, not_lt.mpr (le_of_lt hlt)]),
    if_neg (ne_of_lt hlt)]
  refine ⟨rfl, ?_, ?_⟩
  · intro q hq
    simp [partialSellUpdate, hq]
  · intro q hq
    simp [partialSellUpdate, hq]

/-- C3 witness: the partial-sell theorem applied at a concrete state
holding 10 shares, selling 4. -/
theorem C3_witness :
    (handleSellStock exC3St exC3Form "9" "d").portfolio
      = exC3St.portfolio.map (partialSellUpdate exC3Item.id 4) ∧
    (∀ q : PortfolioItem, q.id ≠ exC3Item.id → partialSellUpdate exC3Item.id 4 q = q) ∧
    (∀ q : PortfolioItem, q.id = exC3Item.id →
      (partialSellUpdate exC3Item.id 4 q).shares = q.shares - 4 ∧
      (partialSellUpdate exC3Item.id 4 q).avgCost = q.avgCost ∧
      (partialSellUpdate exC3Item.id 4 q).symbol = q.symbol ∧
      (partialSellUpdate exC3Item.id 4 q).name = q.name ∧
      (partialSellUpdate exC3Item.id 4 q).id = q.id) :=
  C3_handleSellStock_partialSell exC3St exC3Form "9" "d" exC3Item 120 4 rfl rfl rfl
    (by decide) (by decide)

end StockApp

namespace StockApp

/-- C9 counterexample: `handleAddStock` performs no positivity check on the
parsed share count, so a buy whose shares field parses to `-1` appends a
portfolio item with a negative share count — the non-negativity invariant
is not preserved by every operation as the claim states. -/
theorem C9_counterexample :
    SharesNonneg exC9St ∧
    ¬ SharesNonneg (handleAddStock exC9St exC9BadForm "1") := by
  constructor
  · decide
  · decide

/-- C9 (amended): starting from a state whose portfolio items all have
non-negative share counts, every operation preserves the invariant,
provided the buy's parsed share count is non-negative and, for sells, the
sell target is one of the portfolio items and portfolio ids are distinct;
a sell request with sold shares ≤ 0 or greater than the held shares is
rejected without changing any state. -/
theorem C9_sharesNonneg_preserved (st : AppState) (hInv : SharesNonneg st) :
    (∀ form nowId, 0 ≤ form.newShares.getD 0 →
      SharesNonneg (handleAddStock st form nowId)) ∧
    (∀ form nowId nowDate,
      (∀ item, form.sellItem = some item → item ∈ st.portfolio) →
      (st.portfolio.map PortfolioItem.id).Nodup →
      SharesNonneg (handleSellStock st form nowId nowDate)) ∧
    (∀ pid, SharesNonneg (handleRemoveStock st pid)) ∧
    (∀ sym nowId, SharesNonneg (handleAddToWatchlist st sym nowId)) ∧
    (∀ wid, SharesNonneg (handleRemoveFromWatchlist st wid)) ∧
    (∀ sym a, SharesNonneg (applyAnalysis st sym a)) ∧
    (∀ form nowId nowDate item s, form.sellItem = some item →
      form.sellShares = some s → (s ≤ 0 ∨ item.shares < s) →
      handleSellStock st form nowId nowDate = st) := by
  refine ⟨?_, ?_, ?_, ?_, ?_, ?_, ?_⟩
  · -- buy
    intro form nowId hshares
    unfold handleAddStock
    split
    · exact hInv
    · intro q hq
      rcases List.mem_append.mp hq with hold | hnew
      · exact hInv q hold
      · rcases List.mem_singleton.mp hnew with rfl
        exact hshares
  · -- sell
    intro form nowId nowDate hmem hnodup
    unfold handleSellStock
    split
    · exact hInv
    · rename_i item hitem
      split
      · exact hInv
      · dsimp only
        split
        · exact hInv
        · rename_i hguard
          split
          · -- full sell: the portfolio shrinks to a sublist
            intro q hq
            exact hInv q (List.mem_of_mem_filter hq)
          · -- partial sell
            intro q hq
            rcases List.mem_map.mp hq with ⟨r, hr, rfl⟩
            by_cases hid : r.id = item.id
            · have hri : r = item :=
                List.inj_on_of_nodup_map hnodup hr (hmem item hitem) hid
              have hle : form.sellShares.getD 0 ≤ r.shares := by
                rw [hri]
                exact not_lt.mp (not_or.mp hguard).2
              simp only [partialSellUpdate, if_pos hid]
              exact sub_nonneg.mpr hle
            · simp only [partialSellUpdate, if_neg hid]
              exact hInv r hr
  · -- remove position
    intro pid q hq
    exact hInv q (List.mem_of_mem_filter hq)
  · -- add to watchlist (portfolio untouched)
    intro sym nowId
    unfold handleAddToWatchlist
    split
    · exact hInv
    · exact hInv
  · -- remove from watchlist (portfolio untouched)
    intro wid
    exact hInv
  · -- cache an analysis: only the display name changes
    intro sym a q hq
    rcases List.mem_map.mp hq with ⟨r, hr, rfl⟩
    by_cases hsym : r.symbol = sym
    · simpa [hsym] using hInv r hr
    · simpa [hsym] using hInv r hr
  · -- rejected sell leaves the state unchanged
    intro form nowId nowDate item s hitem hs hguard
    unfold handleSellStock
    rw [hitem]
    dsimp only
    rw [hs, Option.getD_some, if_pos hguard]
    split <;> rfl

/-- C9 witness: the amended invariant theorem applied at a concrete empty
state and a buy of 2 shares. -/
theorem C9_witness :
    SharesNonneg exC9St ∧ SharesNonneg (handleAddStock exC9St exC9GoodForm "1") :=
  ⟨by decide, (C9_sharesNonneg_preserved exC9St (by decide)).1 exC9GoodForm "1" (by decide)⟩

end StockApp

namespace StockApp

/-- C4: when the FinMind price fetch yields `null`,
`analyzeStockWithGemini` throws the user-facing quote error before any AI
narrative stage: the result is that error for every outcome of the two
`generateContent` calls and every parse oracle (so neither
`fetchStockSupportingData` nor `transformDataToJson` is consulted), and no
fallback or estimated price is substituted. -/
theorem C4_priceNull_aborts (env : AnalyzeEnv) (symbol : String)
    (h : fetchFinMindPrice env.finMind = none) :
    analyzeStockWithGemini env symbol
      = .error ("FinMind API 無法取得 " ++ symbol ++ " 的報價。請確認代號正確或 API 配額。") ∧
    (∀ hk sc tc parse now,
      analyzeStockWithGemini
        { finMind := env.finMind, hasApiKey := hk, supportCall := sc,
          transformCall := tc, parse := parse, now := now } symbol
        = analyzeStockWithGemini env symbol) := by
  constructor
  · unfold analyzeStockWithGemini
    rw [h]
  · intro hk sc tc parse now
    unfold analyzeStockWithGemini
    dsimp only
    rw [h]

/-- C4 witness: the abort theorem applied at a concrete environment whose
FinMind fetch fails with an HTTP error. -/
theorem C4_witness :
    analyzeStockWithGemini exC4Env "2330"
      = .error ("FinMind API 無法取得 " ++ "2330" ++ " 的報價。請確認代號正確或 API 配額。") ∧
    (∀ hk sc tc parse now,
      analyzeStockWithGemini
        { finMind := exC4Env.finMind, hasApiKey := hk, supportCall := sc,
          transformCall := tc, parse := parse, now := now } "2330"
        = analyzeStockWithGemini exC4Env "2330") :=
  C4_priceNull_aborts exC4Env "2330" rfl

/-- C7 counterexample: with a successful price fetch (close 100, so the
price stage succeeds) and a supporting stage that succeeds, a thrown error
in the `transformDataToJson` narrative stage propagates:
`analyzeStockWithGemini` fails with `數據解析失敗` instead of degrading to
placeholder text, refuting the claim for that stage. -/
theorem C7_counterexample :
    fetchFinMindPrice exC7Env.finMind = some 100 ∧
    analyzeStockWithGemini exC7Env "2330" = .error "數據解析失敗" :=
  ⟨rfl, rfl⟩

/-- C7 (amended): with a successful price fetch and a configured API key,
a failing supporting-data stage never fails the request (it catches
internally, and the result below holds for every supporting-call outcome
including a throw), and a transform stage that returns text never fails
the request — when the returned text yields no advice string the analysis
carries the placeholder `暫無建議`; but a thrown transform-stage error
propagates as `數據解析失敗` and fails the overall request. -/
theorem C7_narrative_degrades (env : AnalyzeEnv) (symbol : String) (p : ℚ)
    (hprice : fetchFinMindPrice env.finMind = some p)
    (hkey : env.hasApiKey = true) :
    (∀ t urls, env.transformCall = .reply t urls →
      ∃ a, analyzeStockWithGemini env symbol = .ok a ∧
        ((cleanAndParseJson env.parse (t.getD "")).getStr "advice" = none →
          a.advice = "暫無建議")) ∧
    (∀ m, env.transformCall = .throw m →
      analyzeStockWithGemini env symbol = .error "數據解析失敗") := by
  constructor
  · intro t urls ht
    refine ⟨buildAnalysis symbol (cleanAndParseJson env.parse (t.getD ""))
      (fetchStockSupportingData env.supportCall).2 env.now, ?_, ?_⟩
    · unfold analyzeStockWithGemini
      rw [hprice]
      dsimp only
      rw [hkey]
      simp only [if_true, ht, transformDataToJson]
    · intro hadv
      simp [buildAnalysis, strOrDefault, hadv]
  · intro m hm
    unfold analyzeStockWithGemini
    rw [hprice]
    dsimp only
    rw [hkey]
    simp only [if_true, hm, transformDataToJson]

/-- C7 witness: the amended theorem applied at a concrete environment with
a throwing supporting stage and a transform reply with `undefined` text
(so the parsed data has no advice and the placeholder appears). -/
theorem C7_witness :
    ∃ a, analyzeStockWithGemini exC7WEnv "2330" = .ok a ∧
      ((cleanAndParseJson exC7WEnv.parse ((none : Option String).getD "")).getStr "advice" = none →
        a.advice = "暫無建議") :=
  (C7_narrative_degrades exC7WEnv "2330" 100 rfl rfl).1 none [] rfl

/-- C8: `fetchFinMindPrice` returns a price exactly when the response is a
`success` body whose data is a non-empty array and whose last record's
close parses to a number greater than 0 — and then the returned price is
that close; every other outcome (thrown exception, HTTP error, other
message, missing or empty array, NaN or non-positive close) yields
`null`. -/
theorem C8_fetchFinMindPrice_spec (o : FetchOutcome) (price : ℚ) :
    fetchFinMindPrice o = some price ↔
      ∃ records r, o = .body "success" (some records) ∧
        records.getLast? = some r ∧ r.close = some price ∧ 0 < price := by
  constructor
  · intro h
    rcases o with _ | _ | ⟨msg, data⟩
    · simp [fetchFinMindPrice] at h
    · simp [fetchFinMindPrice] at h
    · rcases data with _ | records
      · simp [fetchFinMindPrice] at h
      · simp only [fetchFinMindPrice] at h
        split at h
        next hcond =>
          cases hlast : records.getLast? with
          | none => simp [hlast] at h
          | some r =>
            simp only [hlast] at h
            cases hclose : r.close with
            | none => simp [hclose] at h
            | some q =>
              simp only [hclose] at h
              split at h
              next hq =>
                obtain rfl : q = price := Option.some.inj h
                exact ⟨records, r, by rw [hcond.1], hlast, hclose, hq⟩
              next hq => exact absurd h (by simp)
        next hcond => exact absurd h (by simp)
  · rintro ⟨records, r, rfl, hlast, hclose, hpos⟩
    have hne : records ≠ [] := by
      intro hnil
      rw [hnil] at hlast
      simp at hlast
    simp only [fetchFinMindPrice]
    rw [if_pos (by simp [hne])]
    simp only [hlast, hclose, if_pos hpos]

end StockApp

namespace StockApp

/-- C10: in every analysis returned by `analyzeStockWithGemini`, when the
extracted previous close is not a positive number (missing or `≤ 0`) the
computed `changePercent` is exactly `0` — never NaN or Infinity, since the
positive guard prevents the division; otherwise it equals
`((currentPrice - prevClose) / prevClose) * 100`. -/
theorem C10_changePercent_guard (env : AnalyzeEnv) (symbol : String)
    (d : Json) (a : StockAnalysis)
    (hd : transformDataToJson env.parse env.transformCall = .ok d)
    (ha : analyzeStockWithGemini env symbol = .ok a) :
    ((∀ q, d.getNum "prevClose" = some q → q ≤ 0) → a.changePercent = some 0) ∧
    (∀ q c, d.getNum "prevClose" = some q → 0 < q →
      d.getNum "currentPrice" = some c →
      a.changePercent = some ((c - q) / q * 100)) := by
  have hb : a = buildAnalysis symbol d (fetchStockSupportingData env.supportCall).2 env.now := by
    unfold analyzeStockWithGemini at ha
    cases hfin : fetchFinMindPrice env.finMind with
    | none => rw [hfin] at ha; exact absurd ha (by simp)
    | some p =>
      rw [hfin] at ha
      dsimp only at ha
      by_cases hk : env.hasApiKey = true
      · rw [hk] at ha
        rw [if_pos rfl] at ha
        rw [hd] at ha
        exact (Except.ok.inj ha).symm
      · rw [if_neg hk] at ha
        exact absurd ha (by simp)
  subst hb
  constructor
  · intro hnp
    cases hpc : d.getNum "prevClose" with
    | none => simp [buildAnalysis, changePercentOf, hpc]
    | some q =>
      have hq : q ≤ 0 := hnp q hpc
      simp [buildAnalysis, changePercentOf, hpc, not_lt.mpr hq]
  · intro q c hq hqpos hc
    simp [buildAnalysis, changePercentOf, hq, hc, hqpos]

/-- C10 witness: the guard theorem applied at a concrete run whose parsed
data has `prevClose = 50` and `currentPrice = 60` (so the change percent
is 20). -/
theorem C10_witness :
    ((∀ q, exC10Data.getNum "prevClose" = some q → q ≤ 0) →
      exC10Analysis.changePercent = some 0) ∧
    (∀ q c, exC10Data.getNum "prevClose" = some q → 0 < q →
      exC10Data.getNum "currentPrice" = some c →
      exC10Analysis.changePercent = some ((c - q) / q * 100)) :=
  C10_changePercent_guard exC10Env "2330" exC10Data exC10Analysis rfl rfl

/-- C6: in the `src/unnamed/part_000` version of
`getOverallPortfolioAdvice` (the variant the claim cites), a thrown
strategy-stage error is caught rather than propagated, and the detection
of a rate limit is exactly a substring match of `429` on the error text:
when the text contains `429` the user-facing rate-limit advisory is
returned as the value; otherwise the generic failure message is returned
instead. -/
theorem C6_rateLimit_advisory (env : Part000.AdviceEnv) (e : String)
    (hkey : env.hasApiKey = true) (hthrow : env.strategyCall = .throw e) :
    (includesSubstr "429" e = true →
      Part000.getOverallPortfolioAdvice env
        = .ok "⚠️ AI 思考負載過高。請稍等 1 分鐘後再試 (系統正在自動調節請求頻率)。") ∧
    (includesSubstr "429" e = false →
      Part000.getOverallPortfolioAdvice env = .ok ("⚠️ 建議生成失敗: " ++ e)) := by
  constructor <;> intro h429 <;>
    simp [Part000.getOverallPortfolioAdvice, Part000.analyzePortfolioStrategy,
      hkey, hthrow, h429]

/-- C6 witness: the advisory theorem applied at a concrete environment
whose strategy call throws `Error: 429 Too Many Requests`. -/
theorem C6_witness :
    includesSubstr "429" "Error: 429 Too Many Requests" = true ∧
    Part000.getOverallPortfolioAdvice exC6Env
      = .ok "⚠️ AI 思考負載過高。請稍等 1 分鐘後再試 (系統正在自動調節請求頻率)。" :=
  ⟨by decide,
    (C6_rateLimit_advisory exC6Env "Error: 429 Too Many Requests" rfl rfl).1 (by decide)⟩

/-- C5: `cleanAndParseJson` returns the parsed value whenever the raw text
parses as JSON, or the fence-stripped trimmed text parses (fenced JSON),
or the first-`\x7b`-to-last-`\x7d` slice parses (JSON with prefix/suffix
text); it returns the empty object for empty input and whenever none of
the three steps parses. -/
theorem C5_cleanAndParseJson_spec (parse : String → Option Json) (text : String) :
    (∀ v, text ≠ "" → parse text = some v → cleanAndParseJson parse text = v) ∧
    (∀ v, text ≠ "" → parse text = none → parse (cleanStr text) = some v →
      cleanAndParseJson parse text = v) ∧
    (∀ v s e, text ≠ "" → parse text = none → parse (cleanStr text) = none →
      firstBraceIdx text.toList = some s → lastBraceIdx text.toList = some e →
      parse (braceSlice text s e) = some v → cleanAndParseJson parse text = v) ∧
    (text = "" → cleanAndParseJson parse text = .obj []) ∧
    (parse text = none → parse (cleanStr text) = none →
      (∀ s e, firstBraceIdx text.toList = some s → lastBraceIdx text.toList = some e →
        parse (braceSlice text s e) = none) →
      cleanAndParseJson parse text = .obj []) := by
  refine ⟨?_, ?_, ?_, ?_, ?_⟩
  · intro v hne h
    simp [cleanAndParseJson, hne, h]
  · intro v hne h1 h2
    simp [cleanAndParseJson, hne, h1, h2]
  · intro v s e hne h1 h2 hs he h3
    simp only [String.toList] at hs he
    simp [cleanAndParseJson, hne, h1, h2, hs, he, h3]
  · intro h
    simp [cleanAndParseJson, h]
  · intro h1 h2 h3
    by_cases hne : text = ""
    · simp [cleanAndParseJson, hne]
    · simp only [cleanAndParseJson, hne, if_false, h1, h2]
      cases hs : firstBraceIdx text.toList with
      | none => rfl
      | some s =>
        cases he : lastBraceIdx text.toList with
        | none => rfl
        | some e =>
          dsimp only
          rw [h3 s e hs he]

/-- C5 witness: the recovery theorem applied at a concrete parse oracle
and a fenced input (the oracle accepts exactly the string `null`, and the
fence-stripped trimmed input is that string). -/
theorem C5_witness :
    cleanAndParseJson exC5Parse exC5Fenced = Json.null :=
  (C5_cleanAndParseJson_spec exC5Parse exC5Fenced).2.1 Json.null
    (by decide) rfl rfl

end StockApp
